import Mathlib

/-!
# Verification of the AryFlix backend core logic

Shallow embedding of the ranking, deduplication, filtering and
trailer-resolution logic of `aryflix-backend/tmdbAPI.js`, together with
proofs about it.

Modelling conventions:
* JavaScript numbers are embedded as `ℚ` for the fields of media items
  (all constants involved are exactly representable) and the composite
  score, which involves `Math.log`, lives in `ℝ` via `Real.log`.
* Optional / possibly-`undefined` fields are `Option` values; JavaScript
  truthiness (`x || 1`, `rating && …`) is modelled explicitly on them.
* String operations (`toLowerCase`, `includes`, `startsWith`,
  `split(/\s+/)`) are modelled on the underlying character lists; we
  restrict `toLowerCase` to its ASCII action and `\s` to the ASCII
  whitespace characters, which covers all data appearing in the claims.
-/

namespace AryFlix

/-! ## JavaScript string primitives -/

/-- ASCII action of JavaScript `String.prototype.toLowerCase` on one
character: `'A'`–`'Z'` are shifted to `'a'`–`'z'`, everything else kept. -/
def charLower (c : Char) : Char :=
  if 'A' ≤ c ∧ c ≤ 'Z' then Char.ofNat (c.toNat + 32) else c

/-- JavaScript `s.toLowerCase()` (ASCII fragment). -/
def strLower (s : String) : String :=
  String.mk (s.toList.map charLower)

/-- Does the list `l` start with the list `p`?  (JS `startsWith` on the
underlying characters.) -/
def listStarts : List Char → List Char → Bool
  | _, [] => true
  | [], _ :: _ => false
  | a :: as, b :: bs => a = b && listStarts as bs

/-- Does `sub` occur contiguously somewhere inside `l`?  (JS `includes`
on the underlying characters.) -/
def listContainsSub : List Char → List Char → Bool
  | [], sub => listStarts [] sub
  | c :: cs, sub => listStarts (c :: cs) sub || listContainsSub cs sub

/-- JavaScript `s.includes(sub)`. -/
def strIncludes (s sub : String) : Bool :=
  listContainsSub s.toList sub.toList

/-- JavaScript `s.startsWith(p)`. -/
def strStarts (s p : String) : Bool :=
  listStarts s.toList p.toList

/-- The characters matched by `\s` in a JavaScript regex (ASCII part). -/
def isWsChar (c : Char) : Bool :=
  c = ' ' || c = '\t' || c = '\n' || c = '\r' || c = '\x0b' || c = '\x0c'

/-- Worker for `splitWs`.  `skipMode` records whether we are inside a
run of whitespace (in which case further whitespace is consumed without
emitting a token); `cur` is the reversed current token. -/
def splitWsAux : Bool → List Char → List Char → List String
  | _, [], cur => [String.mk cur.reverse]
  | skipMode, c :: cs, cur =>
    if isWsChar c then
      if skipMode then splitWsAux true cs []
      else String.mk cur.reverse :: splitWsAux true cs []
    else splitWsAux false cs (c :: cur)

/-- JavaScript `s.split(/\s+/)`: the substrings between maximal runs of
whitespace.  A leading (resp. trailing) run produces a leading (resp.
trailing) empty token, and `"".split(/\s+/)` is `[""]`, as in JS. -/
def splitWs (s : String) : List String :=
  splitWsAux false s.toList []

/-! ## `calculateSmartScore` (tmdbAPI.js, lines 1135–1199) -/

/-- JavaScript `popularity || 1`: an absent (`undefined`) or zero
popularity falls back to `1`; any other value is kept. -/
def orOne : Option ℚ → ℚ
  | none => 1
  | some p => if p = 0 then 1 else p

/-- The quality bonus of `calculateSmartScore`:
`if (rating && voteCount > 100) score += (rating / 10) * 20`.
An absent or zero rating is falsy; an absent vote count fails the
comparison `voteCount > 100` (NaN comparison), so both yield `0`. -/
def qualityTerm : Option ℚ → Option ℚ → ℚ
  | some r, some v => if r ≠ 0 ∧ 100 < v then (r / 10) * 20 else 0
  | _, _ => 0

/-- The relevance bonuses of `calculateSmartScore`, on the lower-cased
title and query: `+30` when the title contains the query, and inside
that branch `+20` for an exact match and `+15` for a prefix match. -/
def relevanceTerm (titleLower queryLower : String) : ℚ :=
  if strIncludes titleLower queryLower then
    30 + (if titleLower = queryLower then 20 else 0)
       + (if strStarts titleLower queryLower then 15 else 0)
  else 0

/-- The word-matching loop of `calculateSmartScore`: for every pair of a
query word and a title word (whitespace tokenization), count the pair
when one word contains the other. -/
def wordMatchCount (queryLower titleLower : String) : ℕ :=
  let titleWords := splitWs titleLower
  let queryWords := splitWs queryLower
  (queryWords.map fun qw =>
    (titleWords.filter fun tw => strIncludes tw qw || strIncludes qw tw).length).sum

/-- Embedding of `calculateSmartScore(title, query, popularity, rating,
voteCount)`:
`Math.log(popularity || 1) * 50`, plus the quality bonus, plus the
relevance bonuses, plus `5` per matching word pair. -/
noncomputable def calculateSmartScore
    (title query : String) (popularity rating voteCount : Option ℚ) : ℝ :=
  let titleLower := strLower title
  let queryLower := strLower query
  Real.log (orOne popularity : ℚ) * 50
    + (qualityTerm rating voteCount : ℚ)
    + (relevanceTerm titleLower queryLower : ℚ)
    + (wordMatchCount queryLower titleLower : ℕ) * 5

/-! ## `getValidTMDBTrailer` (tmdbAPI.js, lines 779–804) -/

/-- A TMDB video object, with the fields the trailer resolver reads. -/
structure Video where
  site : String
  type : String
  name : String
  key : String
deriving DecidableEq, Repr

/-- The ordered priority predicates of `getValidTMDBTrailer`
(`trailerPriorities` in the source), most specific first. -/
def trailerPriorities : List (Video → Bool) :=
  [ fun video => video.type = "Trailer" && strIncludes (strLower video.name) "official",
    fun video => video.type = "Trailer" && strIncludes (strLower video.name) "main",
    fun video => video.type = "Trailer",
    fun video => video.type = "Teaser" && strIncludes (strLower video.name) "official",
    fun video => video.type = "Teaser" ]

/-- The priority loop of `getValidTMDBTrailer`: try each predicate with
`find` and return the first hit; after the loop fall back to the first
video of the list (`youtubeVideos[0] || null`). -/
def findByPriorities : List (Video → Bool) → List Video → Option Video
  | [], videos => videos.head?
  | p :: ps, videos =>
    match videos.find? p with
    | some v => some v
    | none => findByPriorities ps videos

/-- Embedding of `getValidTMDBTrailer(videos)`: `null` on an empty
input, restrict to `site === 'YouTube'`, `null` if that is empty, then
run the priority cascade. -/
def getValidTMDBTrailer (videos : List Video) : Option Video :=
  if videos.isEmpty then none
  else
    let youtubeVideos := videos.filter fun video => video.site = "YouTube"
    if youtubeVideos.isEmpty then none
    else findByPriorities trailerPriorities youtubeVideos

/-! ## YouTube fallback (tmdbAPI.js, lines 813–922) -/

/-- A YouTube search result, with the `snippet` fields the scorer
reads (`id.videoId`, `snippet.title`, `snippet.description`,
`snippet.channelTitle`). -/
structure YTVideo where
  videoId : String
  title : String
  description : String
  channelTitle : String
deriving DecidableEq, Repr

/-- The official-channel allow-list of `calculateTrailerScore`. -/
def officialChannels : List String :=
  ["netflix", "hbo", "amazon prime", "disney", "warner"]

/-- Embedding of `calculateTrailerScore(video, originalTitle, year)`.
The year is the number extracted from the release date, `none` standing
for the falsy `''` used when there is no release date (so the year
bonus is skipped, as under `if (year && …)`). -/
def calculateTrailerScore (video : YTVideo) (originalTitle : String)
    (year : Option ℕ) : ℤ :=
  let title := strLower video.title
  let description := strLower video.description
  let channelName := strLower video.channelTitle
  let originalTitleLower := strLower originalTitle
  (if strIncludes title originalTitleLower then (10 : ℤ) else 0)
    + (match year with
       | some y =>
         if y ≠ 0 ∧ (strIncludes title (toString y)
                      || strIncludes description (toString y)) then 5 else 0
       | none => 0)
    + (if strIncludes title "official" then 8 else 0)
    + (if strIncludes title "trailer" then 6 else 0)
    + (if officialChannels.any (fun channel => strIncludes channelName channel)
       then 10 else 0)
    + (if strIncludes title "reaction" then -10 else 0)
    + (if strIncludes title "review" then -10 else 0)
    + (if strIncludes title "fan made" then -15 else 0)

/-- Stable insertion step for a descending sort by `score`: the new
element is placed before the first existing element whose score is not
greater, so it precedes equal-scored elements that came later in the
input. -/
def insertByDesc [LinearOrder β] (score : α → β) (x : α) : List α → List α
  | [] => [x]
  | y :: ys => if score y ≤ score x then x :: y :: ys else y :: insertByDesc score x ys

/-- Stable descending sort by `score`.  JavaScript's
`Array.prototype.sort` with comparator `(a, b) => score(b) - score(a)`
is required (ES2019) to produce the sorted, stable permutation of its
input, which is unique; this insertion sort produces exactly that
permutation. -/
def sortByDesc [LinearOrder β] (score : α → β) : List α → List α
  | [] => []
  | x :: xs => insertByDesc score x (sortByDesc score xs)

/-- Embedding of `findBestYouTubeTrailer(videos, originalTitle, year)`:
score every video, drop non-positive scores, sort descending by score,
return the first remaining video (or `null`). -/
def findBestYouTubeTrailer (videos : List YTVideo) (originalTitle : String)
    (year : Option ℕ) : Option YTVideo :=
  if videos.isEmpty then none
  else
    let scoredVideos :=
      (videos.map fun video => (video, calculateTrailerScore video originalTitle year)).filter
        fun item => 0 < item.2
    match sortByDesc (fun item => item.2) scoredVideos with
    | [] => none
    | best :: _ => some best.1

/-- The search queries of `searchYouTubeTrailer`, most specific first.
With no release year the interpolated `''` leaves a double space, as in
the JS template literals. -/
def trailerQueries (title : String) (year : Option ℕ) : List String :=
  let yearStr := match year with | some y => toString y | none => ""
  [ title ++ " " ++ yearStr ++ " official trailer",
    title ++ " " ++ yearStr ++ " trailer",
    title ++ " official trailer",
    title ++ " trailer" ]

/-- The query loop of `searchYouTubeTrailer`.  The provider is a
function from a query to either an error (a rejected request) or a
result list.  An error makes the surrounding `try`/`catch` return
`null` for the whole stage; a query whose results contain no positive-
scoring video falls through to the next query. -/
def searchLoop (provider : String → Except Unit (List YTVideo))
    (title : String) (year : Option ℕ) : List String → Option YTVideo
  | [] => none
  | query :: rest =>
    match provider query with
    | .error _ => none
    | .ok items =>
      if items.isEmpty then searchLoop provider title year rest
      else
        match findBestYouTubeTrailer items title year with
        | some best => some best
        | none => searchLoop provider title year rest

/-- Embedding of `searchYouTubeTrailer(title, releaseDate, mediaType)`:
without an API key the search is skipped (`null`); otherwise the four
queries are tried in order.  The year is the value extracted from the
release date by `new Date(releaseDate).getFullYear()`, modelled as an
input. -/
def searchYouTubeTrailer (provider : String → Except Unit (List YTVideo))
    (hasKey : Bool) (title : String) (year : Option ℕ) : Option YTVideo :=
  if hasKey then searchLoop provider title year (trailerQueries title year)
  else none

/-- The `trailer` field attached to the details object. -/
structure TrailerInfo where
  source : String
  key : String
  name : String
  site : String
  url : String
deriving DecidableEq, Repr

/-- Embedding of the trailer-resolution part of
`getMovieDetailsWithTrailer` / `getTVDetailsWithTrailer` (tmdbAPI.js,
lines 654–684 and 731–761): try `getValidTMDBTrailer` on the fetched
videos, fall back to `searchYouTubeTrailer`, and otherwise set the
trailer to the explicit `null`. -/
def resolveTrailer (videos : List Video)
    (provider : String → Except Unit (List YTVideo)) (hasKey : Bool)
    (title : String) (year : Option ℕ) : Option TrailerInfo :=
  match getValidTMDBTrailer videos with
  | some t =>
    some ⟨"tmdb", t.key, t.name, t.site, "https://www.youtube.com/watch?v=" ++ t.key⟩
  | none =>
    match searchYouTubeTrailer provider hasKey title year with
    | some v =>
      some ⟨"youtube", v.videoId, v.title, "YouTube",
            "https://www.youtube.com/watch?v=" ++ v.videoId⟩
    | none => none

/-! ## Deduplication (tmdbAPI.js, lines 224–226 and 1004–1013) -/

/-- The seen-set loop of `getWatchAtHomeContent`: walk the list keeping
an item when its key has not been seen yet, and record the key.  `seen`
is the contents of the JS `Set`. -/
def dedupeAux [DecidableEq K] (key : α → K) : List α → List K → List α
  | [], _ => []
  | x :: xs, seen =>
    if key x ∈ seen then dedupeAux key xs seen
    else x :: dedupeAux key xs (key x :: seen)

/-- Embedding of the deduplication of `getWatchAtHomeContent`
(key `` `${item.media_type}-${item.id}` ``, here an arbitrary key
function). -/
def dedupe [DecidableEq K] (key : α → K) (l : List α) : List α :=
  dedupeAux key l []

/-- Worker for the `findIndex`-based deduplication of
`getUpcomingMovies`: `self` is the whole array, `i` the index of the
head of the remaining list; an element is kept when `findIndex` over
`self` of the first element with its key returns its own index. -/
def dedupeFIAux [DecidableEq K] (key : α → K) (self : List α) :
    List α → ℕ → List α
  | [], _ => []
  | x :: xs, i =>
    if self.findIdx? (fun m => key m = key x) = some i then
      x :: dedupeFIAux key self xs (i + 1)
    else dedupeFIAux key self xs (i + 1)

/-- Embedding of
`allMovies.filter((movie, index, self) => index === self.findIndex(m => m.id === movie.id))`
(key `movie.id`, here an arbitrary key function). -/
def dedupeByFindIdx [DecidableEq K] (key : α → K) (l : List α) : List α :=
  dedupeFIAux key l l 0

/-! ## Genre-exclusion filters (tmdbAPI.js, lines 32, 139–143, 992–993) -/

/-- A TMDB genre object (only the `id` is consulted by the filters). -/
structure Genre where
  id : ℕ
deriving DecidableEq, Repr

/-- A fetched show, as far as the genre filters are concerned: `none`
models an absent/undefined `genres` field (a present-but-empty array is
`some []`, which is truthy in JS). -/
structure ShowItem where
  id : ℕ
  genres : Option (List Genre)
deriving DecidableEq, Repr

/-- `EXCLUDED_GENRE_IDS` — Talk, News, Reality. -/
def EXCLUDED_GENRE_IDS : List ℕ := [10767, 10763, 10764]

/-- `show.genres.some(genre => EXCLUDED_GENRE_IDS.includes(genre.id))`,
`false` when the `genres` field is absent. -/
def hasExcludedGenre (s : ShowItem) : Bool :=
  match s.genres with
  | none => false
  | some gs => gs.any fun genre => EXCLUDED_GENRE_IDS.contains genre.id

/-- The genre filter of `getPopularTVShows` (lines 139–143):
`show.genres && !show.genres.some(…)` — an item whose `genres` field is
absent fails the truthiness test and is dropped. -/
def popularTVGenreFilter (shows : List ShowItem) : List ShowItem :=
  shows.filter fun s =>
    match s.genres with
    | none => false
    | some gs => !(gs.any fun genre => EXCLUDED_GENRE_IDS.contains genre.id)

/-- The genre filter of `getWatchAtHomeContent` (lines 992–993):
`!(item.genres && item.genres.some(…))` — an item whose `genres` field
is absent is kept. -/
def watchAtHomeGenreFilter (items : List ShowItem) : List ShowItem :=
  items.filter fun s =>
    match s.genres with
    | none => true
    | some gs => !(gs.any fun genre => EXCLUDED_GENRE_IDS.contains genre.id)

/-! ## `searchMoviesAndTV` (tmdbAPI.js, lines 1028–1087) -/

/-- A raw movie result from `/search/movie`, with the fields the search
pipeline reads. -/
structure RawMovie where
  id : ℕ
  title : String
  poster_path : Option String
  release_date : Option String
  popularity : Option ℚ
  vote_average : Option ℚ
  vote_count : Option ℚ
deriving DecidableEq, Repr

/-- A raw TV result from `/search/tv`. -/
structure RawTV where
  id : ℕ
  name : String
  poster_path : Option String
  first_air_date : Option String
  popularity : Option ℚ
  vote_average : Option ℚ
  vote_count : Option ℚ
deriving DecidableEq, Repr

/-- A processed search result, after the per-kind normalization. -/
structure SearchItem where
  id : ℕ
  media_type : String
  title : String
  poster_path : Option String
  release_date : Option String
  popularity : Option ℚ
  vote_average : Option ℚ
  vote_count : Option ℚ
deriving DecidableEq, Repr

/-- JavaScript
`poster_path ? `https://image.tmdb.org/t/p/w500${poster_path}` : null`
(an empty string is falsy and also yields `null`). -/
def posterUrl (poster_path : Option String) : Option String :=
  match poster_path with
  | none => none
  | some p => if p = "" then none else some ("https://image.tmdb.org/t/p/w500" ++ p)

/-- The movie branch of `searchMoviesAndTV`: tag with
`media_type: 'movie'` and absolutize the poster path. -/
def processMovie (m : RawMovie) : SearchItem :=
  { id := m.id
    media_type := "movie"
    title := m.title
    poster_path := posterUrl m.poster_path
    release_date := m.release_date
    popularity := m.popularity
    vote_average := m.vote_average
    vote_count := m.vote_count }

/-- The TV branch of `searchMoviesAndTV`: tag with `media_type: 'tv'`,
absolutize the poster path, and copy `name` into `title` and
`first_air_date` into `release_date`. -/
def processTV (s : RawTV) : SearchItem :=
  { id := s.id
    media_type := "tv"
    title := s.name
    poster_path := posterUrl s.poster_path
    release_date := s.first_air_date
    popularity := s.popularity
    vote_average := s.vote_average
    vote_count := s.vote_count }

/-- The composite score the search comparator computes for an item:
`calculateSmartScore(a.title, query, a.popularity, a.vote_average,
a.vote_count)`. -/
noncomputable def itemScore (query : String) (a : SearchItem) : ℝ :=
  calculateSmartScore a.title query a.popularity a.vote_average a.vote_count

/-- The sort step of `searchMoviesAndTV`:
`allResults.sort((a, b) => scoreB - scoreA)` — the stable descending
sort by the smart score. -/
noncomputable def rankBySmartScore (query : String) (l : List SearchItem) :
    List SearchItem :=
  sortByDesc (itemScore query) l

/-- Embedding of `searchMoviesAndTV(query)` downstream of the two
provider calls: process both result lists, concatenate movies before TV
shows, sort by smart score, return the top 20. -/
noncomputable def searchMoviesAndTV (query : String)
    (movieResults : List RawMovie) (tvResults : List RawTV) : List SearchItem :=
  let movies := movieResults.map processMovie
  let tvShows := tvResults.map processTV
  let allResults := movies ++ tvShows
  (rankBySmartScore query allResults).take 20

/-! ## Support lemmas: strings -/

theorem listStarts_refl (l : List Char) : listStarts l l = true := by
  induction l with
  | nil => rfl
  | cons c cs ih => simp [listStarts, ih]

theorem listStarts_containsSub {l p : List Char} (h : listStarts l p = true) :
    listContainsSub l p = true := by
  cases l with
  | nil => simpa [listContainsSub] using h
  | cons c cs => simp [listContainsSub, h]

theorem strIncludes_self (s : String) : strIncludes s s = true :=
  listStarts_containsSub (listStarts_refl _)

theorem strStarts_strIncludes {s p : String} (h : strStarts s p = true) :
    strIncludes s p = true :=
  listStarts_containsSub h

/-! ## Support lemmas: the smart score -/

/-- The relevance bonuses are mutually independent: because an exact
match and a prefix match each imply the containment test, the nested
conditionals are the same as three separate additive bonuses. -/
theorem relevanceTerm_eq_sum (t q : String) :
    relevanceTerm t q
      = (if strIncludes t q then (30 : ℚ) else 0)
        + (if t = q then 20 else 0)
        + (if strStarts t q then 15 else 0) := by
  unfold relevanceTerm
  by_cases hinc : strIncludes t q
  · simp [hinc]
  · have heq : ¬ t = q := fun h => hinc (h ▸ strIncludes_self t)
    have hst : ¬ strStarts t q = true := fun h => hinc (strStarts_strIncludes h)
    simp [hinc, heq, hst]

/-- The word-matching loop counts exactly the matching pairs of the
Cartesian product of query words and title words. -/
theorem wordMatchCount_eq_countP (q t : String) :
    wordMatchCount q t
      = (((splitWs q).flatMap fun qw => (splitWs t).map fun tw => (qw, tw)).countP
          fun pr => strIncludes pr.2 pr.1 || strIncludes pr.1 pr.2) := by
  unfold wordMatchCount
  rw [List.countP_flatMap]
  apply congrArg List.sum
  apply List.map_congr_left
  intro qw _
  show (List.filter (fun tw => strIncludes tw qw || strIncludes qw tw) (splitWs t)).length
    = List.countP (fun pr => strIncludes pr.2 pr.1 || strIncludes pr.1 pr.2)
        (List.map (fun tw => (qw, tw)) (splitWs t))
  rw [List.countP_map, List.countP_eq_length_filter]
  rfl

/-- `calculateSmartScore` unfolded into its four terms. -/
theorem calculateSmartScore_eq (title query : String)
    (popularity rating voteCount : Option ℚ) :
    calculateSmartScore title query popularity rating voteCount
      = Real.log (orOne popularity : ℚ) * 50
        + (qualityTerm rating voteCount : ℚ)
        + (relevanceTerm (strLower title) (strLower query) : ℚ)
        + (wordMatchCount (strLower query) (strLower title) : ℕ) * 5 := rfl

/-- Because a zero rating contributes `0` either way, the truthiness
guard on the rating is redundant in the quality bonus. -/
theorem qualityTerm_some_some (r v : ℚ) :
    qualityTerm (some r) (some v) = if 100 < v then r / 10 * 20 else 0 := by
  by_cases hr : r = 0
  · subst hr; simp [qualityTerm]
  · simp [qualityTerm, hr]

theorem qualityTerm_mono_rating {r₁ r₂ : ℚ} (v : Option ℚ) (h : r₁ ≤ r₂) :
    qualityTerm (some r₁) v ≤ qualityTerm (some r₂) v := by
  cases v with
  | none => simp [qualityTerm]
  | some v =>
    rw [qualityTerm_some_some, qualityTerm_some_some]
    by_cases hv : 100 < v
    · simp only [hv, if_true]; linarith
    · simp [hv]

theorem qualityTerm_eq_zero_of_low {rating : Option ℚ} {v : ℚ} (h : v ≤ 100) :
    qualityTerm rating (some v) = 0 := by
  cases rating with
  | none => rfl
  | some r =>
    simp only [qualityTerm, ite_eq_right_iff, and_imp]
    intro _ hv
    exact absurd hv (not_lt.mpr h)

theorem qualityTerm_none_votes (rating : Option ℚ) : qualityTerm rating none = 0 := by
  cases rating <;> rfl

theorem qualityTerm_none_rating (v : Option ℚ) : qualityTerm none v = 0 := by
  cases v <;> rfl

/-! ## Claim C1 -/

/-- C1 counterexample.  The source computes
`Math.log(popularity || 1) * 50`, not `log(max(popularity, 1)) * 50`:
`popularity || 1` keeps every nonzero value, so a popularity of `1/2`
contributes `log(1/2) * 50 < 0`.  At that input the popularity term
differs from the claimed `log(max(popularity, 1)) * 50 = 0`, and
raising popularity from `0` to `1/2` (all other fields fixed) strictly
decreases the composite score, refuting the claimed monotonicity. -/
theorem C1_counterexample :
    calculateSmartScore "a" "b" (some (1/2)) none none
      < calculateSmartScore "a" "b" (some 0) none none
    ∧ calculateSmartScore "a" "b" (some (1/2)) none none
      ≠ Real.log (max (1/2 : ℝ) 1) * 50 := by
  have hr : relevanceTerm (strLower "a") (strLower "b") = 0 := by decide
  have hw : wordMatchCount (strLower "b") (strLower "a") = 0 := by decide
  have h₁ : calculateSmartScore "a" "b" (some (1/2)) none none
      = Real.log (1/2 : ℝ) * 50 := by
    rw [calculateSmartScore_eq]
    have ho : orOne (some (1/2 : ℚ)) = 1/2 := by norm_num [orOne]
    rw [ho, hr, hw, qualityTerm_none_votes]
    push_cast
    ring
  have h₂ : calculateSmartScore "a" "b" (some 0) none none = 0 := by
    rw [calculateSmartScore_eq]
    have ho : orOne (some (0 : ℚ)) = 1 := by norm_num [orOne]
    rw [ho, hr, hw, qualityTerm_none_votes]
    push_cast
    simp
  have hneg : Real.log (1/2 : ℝ) < 0 := Real.log_neg (by norm_num) (by norm_num)
  refine ⟨?_, ?_⟩
  · rw [h₁, h₂]; nlinarith
  · rw [h₁]
    have hm : max (1/2 : ℝ) 1 = 1 := by norm_num
    rw [hm, Real.log_one, zero_mul]
    nlinarith

/-- C1 (amended).  The popularity term is
`log(popularity || 1) * 50`: absent or zero popularity falls back to
`1`, any nonzero value is passed to `log` unchanged — so increasing
popularity never decreases the composite score provided the increase
does not move from `0` into the open interval `(0, 1)` (old value
nonzero, or new value at least `1`); increasing the rating while the
vote count exceeds 100 never decreases the composite score; and a vote
count of at most 100 (or absent) makes the quality term exactly `0`
regardless of the rating. -/
theorem C1_amended :
    (∀ p : ℚ, p ≠ 0 → orOne (some p) = p)
    ∧ orOne (some 0) = 1
    ∧ orOne none = 1
    ∧ (∀ (t q : String) (r v : Option ℚ) (p₁ p₂ : ℚ), 0 ≤ p₁ → p₁ ≤ p₂ →
        (p₁ ≠ 0 ∨ 1 ≤ p₂) →
        calculateSmartScore t q (some p₁) r v ≤ calculateSmartScore t q (some p₂) r v)
    ∧ (∀ (t q : String) (p : Option ℚ) (v r₁ r₂ : ℚ), 100 < v → r₁ ≤ r₂ →
        calculateSmartScore t q p (some r₁) (some v)
          ≤ calculateSmartScore t q p (some r₂) (some v))
    ∧ (∀ (rating : Option ℚ) (v : ℚ), v ≤ 100 → qualityTerm rating (some v) = 0)
    ∧ (∀ rating : Option ℚ, qualityTerm rating none = 0) := by
  refine ⟨fun p hp => by simp [orOne, hp], by norm_num [orOne], rfl, ?_, ?_,
    fun rating v h => qualityTerm_eq_zero_of_low h, qualityTerm_none_votes⟩
  · intro t q r v p₁ p₂ h0 h12 hcase
    rw [calculateSmartScore_eq, calculateSmartScore_eq]
    have hlog : Real.log ((orOne (some p₁) : ℚ) : ℝ)
        ≤ Real.log ((orOne (some p₂) : ℚ) : ℝ) := by
      by_cases hne : p₁ = 0
      · subst hne
        have hge : (1 : ℚ) ≤ p₂ := hcase.resolve_left (fun h => h rfl)
        have h1 : orOne (some (0 : ℚ)) = 1 := by norm_num [orOne]
        have h2 : orOne (some p₂) = p₂ := by
          have : p₂ ≠ 0 := by intro h; rw [h] at hge; norm_num at hge
          simp [orOne, this]
        rw [h1, h2]
        push_cast
        rw [Real.log_one]
        exact Real.log_nonneg (by exact_mod_cast hge)
      · have hpos : 0 < p₁ := lt_of_le_of_ne h0 (Ne.symm hne)
        have h1 : orOne (some p₁) = p₁ := by simp [orOne, hne]
        have h2 : orOne (some p₂) = p₂ := by
          have : p₂ ≠ 0 := (lt_of_lt_of_le hpos h12).ne'
          simp [orOne, this]
        rw [h1, h2]
        exact Real.log_le_log (by exact_mod_cast hpos) (by exact_mod_cast h12)
    have h50 : Real.log ((orOne (some p₁) : ℚ) : ℝ) * 50
        ≤ Real.log ((orOne (some p₂) : ℚ) : ℝ) * 50 := by nlinarith
    exact add_le_add_right (add_le_add_right (add_le_add_right h50 _) _) _
  · intro t q p v r₁ r₂ hv h
    rw [calculateSmartScore_eq, calculateSmartScore_eq]
    have hq : (qualityTerm (some r₁) (some v) : ℝ) ≤ (qualityTerm (some r₂) (some v) : ℝ) := by
      exact_mod_cast qualityTerm_mono_rating (some v) h
    exact add_le_add_right (add_le_add_right (add_le_add_left hq _) _) _

/-- C1 witness: the amended monotonicity and quality-zero statements at
concrete inputs. -/
theorem C1_witness :
    calculateSmartScore "a" "b" (some 1) none none
      ≤ calculateSmartScore "a" "b" (some 2) none none
    ∧ calculateSmartScore "a" "a" (some 1) (some 5) (some 200)
      ≤ calculateSmartScore "a" "a" (some 1) (some 6) (some 200)
    ∧ qualityTerm (some 5) (some 50) = 0
    ∧ orOne (some 3) = 3 :=
  ⟨C1_amended.2.2.2.1 "a" "b" none none 1 2 (by norm_num) (by norm_num)
      (Or.inl (by norm_num)),
   C1_amended.2.2.2.2.1 "a" "a" (some 1) 200 5 6 (by norm_num) (by norm_num),
   C1_amended.2.2.2.2.2.1 (some 5) 50 (by norm_num),
   C1_amended.1 3 (by norm_num)⟩

/-! ## Claim C9 -/

/-- C9: a media item with missing optional numeric fields is still
scored (the embedding is a total function): an absent popularity makes
the popularity term `log(1) * 50 = 0`, an absent rating and an absent
vote count each make the quality term `0`, so the score reduces to the
remaining terms. -/
theorem C9_missing_fields :
    (∀ (title query : String) (rating votes : Option ℚ),
      calculateSmartScore title query none rating votes
        = (qualityTerm rating votes : ℚ)
          + (relevanceTerm (strLower title) (strLower query) : ℚ)
          + (wordMatchCount (strLower query) (strLower title) : ℕ) * 5)
    ∧ Real.log (orOne none : ℚ) * 50 = 0
    ∧ (∀ (title query : String) (pop votes : Option ℚ),
      calculateSmartScore title query pop none votes
        = Real.log (orOne pop : ℚ) * 50
          + (relevanceTerm (strLower title) (strLower query) : ℚ)
          + (wordMatchCount (strLower query) (strLower title) : ℕ) * 5)
    ∧ (∀ (title query : String) (pop rating : Option ℚ),
      calculateSmartScore title query pop rating none
        = Real.log (orOne pop : ℚ) * 50
          + (relevanceTerm (strLower title) (strLower query) : ℚ)
          + (wordMatchCount (strLower query) (strLower title) : ℕ) * 5) := by
  have hlog1 : Real.log ((orOne none : ℚ) : ℝ) * 50 = 0 := by
    show Real.log ((1 : ℚ) : ℝ) * 50 = 0
    push_cast
    rw [Real.log_one, zero_mul]
  refine ⟨?_, hlog1, ?_, ?_⟩
  · intro title query rating votes
    rw [calculateSmartScore_eq, hlog1, zero_add]
  · intro title query pop votes
    rw [calculateSmartScore_eq, qualityTerm_none_rating]
    push_cast
    ring
  · intro title query pop rating
    rw [calculateSmartScore_eq, qualityTerm_none_votes]
    push_cast
    ring

/-! ## Claim C2 -/

/-- C2: the title-relevance contribution is the sum of four independent
additive bonuses — `+30` for containment, `+20` for exact equality,
`+15` for a prefix match, and `+5` per pair of the Cartesian product of
query words and title words in which one word contains the other.  For
query "avatar" and title "Avatar" the containment, exact and prefix
bonuses all apply (`65` points from those three terms), and a
same-popularity same-quality item titled "Avatar: The Way of Water"
scores strictly lower and is ranked after it by the search pipeline. -/
theorem C2_title_relevance :
    (∀ (title query : String) (pop rating votes : Option ℚ),
      calculateSmartScore title query pop rating votes
        = Real.log (orOne pop : ℚ) * 50 + (qualityTerm rating votes : ℚ)
          + ((if strIncludes (strLower title) (strLower query) then (30 : ℝ) else 0)
            + (if strLower title = strLower query then 20 else 0)
            + (if strStarts (strLower title) (strLower query) then 15 else 0))
          + ((((splitWs (strLower query)).flatMap fun qw =>
                (splitWs (strLower title)).map fun tw => (qw, tw)).countP
              fun pr => strIncludes pr.2 pr.1 || strIncludes pr.1 pr.2) : ℕ) * 5)
    ∧ relevanceTerm (strLower "Avatar") (strLower "avatar") = 65
    ∧ strIncludes (strLower "Avatar") (strLower "avatar") = true
    ∧ strLower "Avatar" = strLower "avatar"
    ∧ strStarts (strLower "Avatar") (strLower "avatar") = true
    ∧ (∀ pop rating votes : Option ℚ,
        calculateSmartScore "Avatar: The Way of Water" "avatar" pop rating votes
          < calculateSmartScore "Avatar" "avatar" pop rating votes)
    ∧ searchMoviesAndTV "avatar"
        [⟨2, "Avatar: The Way of Water", none, none, some 100, some 7, some 5000⟩,
         ⟨1, "Avatar", none, none, some 100, some 7, some 5000⟩] []
      = [processMovie ⟨1, "Avatar", none, none, some 100, some 7, some 5000⟩,
         processMovie ⟨2, "Avatar: The Way of Water", none, none, some 100, some 7, some 5000⟩] := by
  have hdec : ∀ (title query : String) (pop rating votes : Option ℚ),
      calculateSmartScore title query pop rating votes
        = Real.log (orOne pop : ℚ) * 50 + (qualityTerm rating votes : ℚ)
          + ((if strIncludes (strLower title) (strLower query) then (30 : ℝ) else 0)
            + (if strLower title = strLower query then 20 else 0)
            + (if strStarts (strLower title) (strLower query) then 15 else 0))
          + ((((splitWs (strLower query)).flatMap fun qw =>
                (splitWs (strLower title)).map fun tw => (qw, tw)).countP
              fun pr => strIncludes pr.2 pr.1 || strIncludes pr.1 pr.2) : ℕ) * 5 := by
    intro title query pop rating votes
    rw [calculateSmartScore_eq, relevanceTerm_eq_sum, ← wordMatchCount_eq_countP]
    push_cast
    split_ifs <;> push_cast <;> ring
  have e1 : relevanceTerm (strLower "Avatar") (strLower "avatar") = 65 := by
    rw [show strLower "Avatar" = "avatar" from rfl, show strLower "avatar" = "avatar" from rfl]
    norm_num [relevanceTerm, show strIncludes "avatar" "avatar" = true from rfl,
      show strStarts "avatar" "avatar" = true from rfl]
  have e2 : relevanceTerm (strLower "Avatar: The Way of Water") (strLower "avatar") = 45 := by
    rw [show strLower "Avatar: The Way of Water" = "avatar: the way of water" from rfl,
      show strLower "avatar" = "avatar" from rfl]
    norm_num [relevanceTerm,
      show strIncludes "avatar: the way of water" "avatar" = true from rfl,
      show strStarts "avatar: the way of water" "avatar" = true from rfl,
      show ("avatar: the way of water" : String) ≠ "avatar" from by decide]
  have e3 : wordMatchCount (strLower "avatar") (strLower "Avatar") = 1 := rfl
  have e4 : wordMatchCount (strLower "avatar") (strLower "Avatar: The Way of Water") = 1 := rfl
  have hlt : ∀ pop rating votes : Option ℚ,
      calculateSmartScore "Avatar: The Way of Water" "avatar" pop rating votes
        < calculateSmartScore "Avatar" "avatar" pop rating votes := by
    intro pop rating votes
    rw [calculateSmartScore_eq, calculateSmartScore_eq, e1, e2, e3, e4]
    push_cast
    linarith
  refine ⟨hdec, e1, rfl, rfl, rfl, hlt, ?_⟩
  have hlt' : itemScore "avatar"
        (processMovie ⟨2, "Avatar: The Way of Water", none, none, some 100, some 7, some 5000⟩)
      < itemScore "avatar"
        (processMovie ⟨1, "Avatar", none, none, some 100, some 7, some 5000⟩) :=
    hlt (some 100) (some 7) (some 5000)
  have step : sortByDesc (itemScore "avatar")
        [processMovie ⟨2, "Avatar: The Way of Water", none, none, some 100, some 7, some 5000⟩,
         processMovie ⟨1, "Avatar", none, none, some 100, some 7, some 5000⟩]
      = [processMovie ⟨1, "Avatar", none, none, some 100, some 7, some 5000⟩,
         processMovie ⟨2, "Avatar: The Way of Water", none, none, some 100, some 7, some 5000⟩] := by
    show (if itemScore "avatar"
            (processMovie ⟨1, "Avatar", none, none, some 100, some 7, some 5000⟩)
          ≤ itemScore "avatar"
            (processMovie ⟨2, "Avatar: The Way of Water", none, none, some 100, some 7, some 5000⟩)
        then _ else _) = _
    rw [if_neg (not_le.mpr hlt')]
    rfl
  show (sortByDesc (itemScore "avatar")
      [processMovie ⟨2, "Avatar: The Way of Water", none, none, some 100, some 7, some 5000⟩,
       processMovie ⟨1, "Avatar", none, none, some 100, some 7, some 5000⟩]).take 20 = _
  rw [step]
  rfl

/-! ## Claim C3 -/

/-- The priority loop, characterized: the first `find?` hit of the
earliest priority with any hit, else the head of the list. -/
theorem findByPriorities_eq (ps : List (Video → Bool)) (videos : List Video) :
    findByPriorities ps videos
      = (ps.findSome? fun p => videos.find? p).orElse fun _ => videos.head? := by
  induction ps with
  | nil => rfl
  | cons p ps ih =>
    show (match videos.find? p with
          | some v => some v
          | none => findByPriorities ps videos) = _
    rw [List.findSome?_cons]
    cases h : videos.find? p with
    | some v => rfl
    | none => simpa using ih

/-- C3: over the input restricted to YouTube-hosted videos, the primary
trailer lookup returns the first video matching the earliest priority
predicate that has any match; with no match at all it falls back to the
first video of the restricted list, and on an empty restricted list it
returns `null`.  In particular, given a Trailer named "Official
Trailer" and a Teaser named "Teaser 1" (in either order), it returns
the Trailer. -/
theorem C3_primary_trailer :
    (∀ videos : List Video,
      getValidTMDBTrailer videos
        = ((trailerPriorities.findSome? fun p =>
              (videos.filter fun video => video.site = "YouTube").find? p).orElse
            fun _ => (videos.filter fun video => video.site = "YouTube").head?))
    ∧ getValidTMDBTrailer
        [⟨"YouTube", "Teaser", "Teaser 1", "k2"⟩,
         ⟨"YouTube", "Trailer", "Official Trailer", "k1"⟩]
      = some ⟨"YouTube", "Trailer", "Official Trailer", "k1"⟩
    ∧ getValidTMDBTrailer
        [⟨"YouTube", "Trailer", "Official Trailer", "k1"⟩,
         ⟨"YouTube", "Teaser", "Teaser 1", "k2"⟩]
      = some ⟨"YouTube", "Trailer", "Official Trailer", "k1"⟩
    ∧ getValidTMDBTrailer [] = none := by
  refine ⟨?_, by decide, by decide, rfl⟩
  intro videos
  unfold getValidTMDBTrailer
  by_cases h : videos.isEmpty
  · rw [if_pos h, List.isEmpty_iff.mp h]
    rfl
  · rw [if_neg h]
    show (if (videos.filter fun video => video.site = "YouTube").isEmpty then none
          else findByPriorities trailerPriorities
            (videos.filter fun video => video.site = "YouTube")) = _
    by_cases h2 : (videos.filter fun video => video.site = "YouTube").isEmpty
    · rw [if_pos h2, List.isEmpty_iff.mp h2]
      rfl
    · rw [if_neg h2, findByPriorities_eq]

/-! ## Support lemmas: the stable descending sort -/

section SortLemmas

variable {α : Type _} {β : Type _} [LinearOrder β] (score : α → β)

theorem insertByDesc_perm (x : α) (l : List α) :
    List.Perm (insertByDesc score x l) (x :: l) := by
  induction l with
  | nil => exact List.Perm.refl _
  | cons y ys ih =>
    show List.Perm (if score y ≤ score x then x :: y :: ys else y :: insertByDesc score x ys) _
    split
    · exact List.Perm.refl _
    · exact (List.Perm.cons y ih).trans (List.Perm.swap x y ys)

theorem sortByDesc_perm (l : List α) : List.Perm (sortByDesc score l) l := by
  induction l with
  | nil => exact List.Perm.refl _
  | cons x xs ih => exact (insertByDesc_perm score x _).trans (List.Perm.cons x ih)

theorem mem_insertByDesc {x y : α} {l : List α} :
    y ∈ insertByDesc score x l ↔ y = x ∨ y ∈ l := by
  rw [(insertByDesc_perm score x l).mem_iff, List.mem_cons]

theorem pairwise_insertByDesc {x : α} {l : List α}
    (h : l.Pairwise fun a b => score b ≤ score a) :
    (insertByDesc score x l).Pairwise fun a b => score b ≤ score a := by
  induction l with
  | nil => simp [insertByDesc]
  | cons y ys ih =>
    have h1 : ∀ z ∈ ys, score z ≤ score y := (List.pairwise_cons.mp h).1
    have h2 : ys.Pairwise fun a b => score b ≤ score a := (List.pairwise_cons.mp h).2
    show (if score y ≤ score x then x :: y :: ys else y :: insertByDesc score x ys).Pairwise _
    by_cases hle : score y ≤ score x
    · rw [if_pos hle]
      refine List.Pairwise.cons ?_ h
      intro z hz
      rcases List.mem_cons.mp hz with rfl | hz'
      · exact hle
      · exact (h1 z hz').trans hle
    · rw [if_neg hle]
      refine List.Pairwise.cons ?_ (ih h2)
      intro z hz
      rcases (mem_insertByDesc score).mp hz with rfl | hz'
      · exact le_of_not_le hle
      · exact h1 z hz'

theorem sortByDesc_pairwise (l : List α) :
    (sortByDesc score l).Pairwise fun a b => score b ≤ score a := by
  induction l with
  | nil => simp [sortByDesc]
  | cons x xs ih => exact pairwise_insertByDesc score ih

/-- Stability of the insertion step, phrased through `filter`: among the
elements of any fixed score `s`, inserting an element of score `s` puts
it first (it is inserted before the strictly smaller scores only), and
inserting an element of another score changes nothing. -/
theorem insertByDesc_filter (s : β) (x : α) (l : List α) :
    (insertByDesc score x l).filter (fun y => decide (score y = s))
      = if score x = s then x :: l.filter (fun y => decide (score y = s))
        else l.filter (fun y => decide (score y = s)) := by
  induction l with
  | nil =>
    show [x].filter (fun y => decide (score y = s)) = _
    by_cases hs : score x = s
    · simp [List.filter_cons, hs]
    · simp [List.filter_cons, hs]
  | cons y ys ih =>
    show (if score y ≤ score x then x :: y :: ys else y :: insertByDesc score x ys).filter _ = _
    by_cases hle : score y ≤ score x
    · rw [if_pos hle]
      by_cases hs : score x = s
      · simp [List.filter_cons, hs]
      · simp [List.filter_cons, hs]
    · rw [if_neg hle]
      by_cases hs : score x = s
      · have hy : ¬ score y = s := fun h => hle (le_of_eq (h.trans hs.symm))
        simp [List.filter_cons, hy, ih, hs]
      · simp [List.filter_cons, ih, hs]

/-- Stability of the sort, phrased through `filter`: the elements of
any fixed score appear in the output in their input order. -/
theorem sortByDesc_filter (s : β) (l : List α) :
    (sortByDesc score l).filter (fun y => decide (score y = s))
      = l.filter (fun y => decide (score y = s)) := by
  induction l with
  | nil => rfl
  | cons x xs ih =>
    show (insertByDesc score x (sortByDesc score xs)).filter _ = _
    rw [insertByDesc_filter]
    by_cases hs : score x = s
    · simp [List.filter_cons, hs, ih]
    · simp [List.filter_cons, hs, ih]

/-- The head of the sorted list bounds every element. -/
theorem sortByDesc_head_max {l : List α} {best : α} {rest : List α}
    (h : sortByDesc score l = best :: rest) :
    ∀ z ∈ l, score z ≤ score best := by
  intro z hz
  have hz' : z ∈ best :: rest := h ▸ (sortByDesc_perm score l).mem_iff.mpr hz
  rcases List.mem_cons.mp hz' with rfl | hz''
  · exact le_refl _
  · have hp := sortByDesc_pairwise score l
    rw [h, List.pairwise_cons] at hp
    exact hp.1 z hz''

end SortLemmas

/-! ## Claim C8 -/

/-- C8: the search ranking is a stable descending sort by the composite
score — the output is a permutation of the input (movies before TV
shows, in provider order), it is sorted descending by score, and the
elements of any fixed score keep their input order; ranking the empty
input yields the empty list. -/
theorem C8_stable_ranking :
    (∀ query : String, searchMoviesAndTV query [] [] = [])
    ∧ (∀ (query : String) (l : List SearchItem),
        List.Perm (rankBySmartScore query l) l)
    ∧ (∀ (query : String) (l : List SearchItem),
        (rankBySmartScore query l).Pairwise fun a b =>
          itemScore query b ≤ itemScore query a)
    ∧ (∀ (query : String) (l : List SearchItem) (s : ℝ),
        (rankBySmartScore query l).filter (fun x => decide (itemScore query x = s))
          = l.filter fun x => decide (itemScore query x = s)) :=
  ⟨fun _ => rfl,
   fun query l => sortByDesc_perm (itemScore query) l,
   fun query l => sortByDesc_pairwise (itemScore query) l,
   fun query l s => sortByDesc_filter (itemScore query) s l⟩

/-! ## Claim C5 -/

/-- C5: trailer resolution never propagates a provider failure — a
missing API key or a provider error during the secondary search yields
the stage result "nothing", and when both stages yield nothing the
resolution completes with the explicit `none` trailer value rather than
throwing or omitting the field. -/
theorem C5_graceful_failure :
    (∀ (provider : String → Except Unit (List YTVideo)) (title : String) (year : Option ℕ),
      searchYouTubeTrailer provider false title year = none)
    ∧ (∀ (provider : String → Except Unit (List YTVideo)) (title : String) (year : Option ℕ),
        (∀ q, provider q = .error ()) →
        searchYouTubeTrailer provider true title year = none)
    ∧ (∀ (videos : List Video) (provider : String → Except Unit (List YTVideo))
        (hasKey : Bool) (title : String) (year : Option ℕ),
        getValidTMDBTrailer videos = none →
        searchYouTubeTrailer provider hasKey title year = none →
        resolveTrailer videos provider hasKey title year = none)
    ∧ (∀ (provider : String → Except Unit (List YTVideo)) (title : String) (year : Option ℕ),
        resolveTrailer [] provider false title year = none) := by
  have h3 : ∀ (videos : List Video) (provider : String → Except Unit (List YTVideo))
      (hasKey : Bool) (title : String) (year : Option ℕ),
      getValidTMDBTrailer videos = none →
      searchYouTubeTrailer provider hasKey title year = none →
      resolveTrailer videos provider hasKey title year = none := by
    intro videos provider hasKey title year h hs
    simp only [resolveTrailer, h, hs]
  refine ⟨fun _ _ _ => rfl, ?_, h3, fun provider title year => h3 [] provider false title year rfl rfl⟩
  intro provider title year h
  show searchLoop provider title year (trailerQueries title year) = none
  have hall : ∀ qs, searchLoop provider title year qs = none := by
    intro qs
    induction qs with
    | nil => rfl
    | cons q rest ih =>
      show (match provider q with
            | .error _ => none
            | .ok items =>
              if items.isEmpty then searchLoop provider title year rest
              else
                match findBestYouTubeTrailer items title year with
                | some best => some best
                | none => searchLoop provider title year rest) = none
      rw [h q]
  exact hall _

/-- C5 witness: the graceful-failure statements at a concrete erroring
provider and concrete empty video list. -/
theorem C5_witness :
    searchYouTubeTrailer (fun _ => .error ()) true "T" none = none
    ∧ resolveTrailer [] (fun _ => .error ()) true "T" none = none :=
  ⟨C5_graceful_failure.2.1 (fun _ => .error ()) "T" none (fun _ => rfl),
   C5_graceful_failure.2.2.1 [] (fun _ => .error ()) true "T" none rfl
     (C5_graceful_failure.2.1 (fun _ => .error ()) "T" none (fun _ => rfl))⟩

/-! ## Claim C4 -/

/-- The query loop, characterized for a provider that never errors: the
result of the first query whose result list contains a
positive-scoring video. -/
theorem searchLoop_findSome (provider : String → Except Unit (List YTVideo))
    (title : String) (year : Option ℕ)
    (h : ∀ q, ∃ items, provider q = .ok items) (qs : List String) :
    searchLoop provider title year qs
      = qs.findSome? fun q =>
          match provider q with
          | .ok items =>
            if items.isEmpty then none else findBestYouTubeTrailer items title year
          | .error _ => none := by
  induction qs with
  | nil => rfl
  | cons q rest ih =>
    obtain ⟨items, hq⟩ := h q
    rw [List.findSome?_cons]
    show (match provider q with
          | .error _ => none
          | .ok items =>
            if items.isEmpty then searchLoop provider title year rest
            else
              match findBestYouTubeTrailer items title year with
              | some best => some best
              | none => searchLoop provider title year rest) = _
    rw [hq]
    by_cases hi : items.isEmpty
    · simp only [hi, if_true]
      exact ih
    · simp only [hi, if_false, Bool.false_eq_true]
      cases hb : findBestYouTubeTrailer items title year with
      | some best => simp [hb]
      | none => simpa [hb] using ih

/-- C4: the secondary search issues the four queries most specific
first, stopping at the first query with a scoreable result; every
result is scored by the eight additive relevance bonuses and
penalties, non-positive scores are excluded, and the highest-scoring
remaining video is returned. -/
theorem C4_secondary_search :
    (∀ (title : String) (y : ℕ),
      trailerQueries title (some y)
        = [title ++ " " ++ toString y ++ " official trailer",
           title ++ " " ++ toString y ++ " trailer",
           title ++ " official trailer",
           title ++ " trailer"])
    ∧ (∀ (provider : String → Except Unit (List YTVideo)) (title : String) (year : Option ℕ),
        (∀ q, ∃ items, provider q = Except.ok items) →
        searchYouTubeTrailer provider true title year
          = (trailerQueries title year).findSome? fun q =>
              match provider q with
              | .ok items =>
                if items.isEmpty then none else findBestYouTubeTrailer items title year
              | .error _ => none)
    ∧ (∀ (video : YTVideo) (title : String) (y : ℕ), y ≠ 0 →
        calculateTrailerScore video title (some y)
          = (if strIncludes (strLower video.title) (strLower title) then (10 : ℤ) else 0)
            + (if strIncludes (strLower video.title) (toString y)
                  || strIncludes (strLower video.description) (toString y) then 5 else 0)
            + (if strIncludes (strLower video.title) "official" then 8 else 0)
            + (if strIncludes (strLower video.title) "trailer" then 6 else 0)
            + (if officialChannels.any
                  (fun channel => strIncludes (strLower video.channelTitle) channel)
               then 10 else 0)
            + (if strIncludes (strLower video.title) "reaction" then -10 else 0)
            + (if strIncludes (strLower video.title) "review" then -10 else 0)
            + (if strIncludes (strLower video.title) "fan made" then -15 else 0))
    ∧ (∀ (videos : List YTVideo) (title : String) (year : Option ℕ),
        (findBestYouTubeTrailer videos title year = none →
          ∀ v ∈ videos, calculateTrailerScore v title year ≤ 0)
        ∧ (∀ best, findBestYouTubeTrailer videos title year = some best →
            best ∈ videos ∧ 0 < calculateTrailerScore best title year
            ∧ ∀ w ∈ videos,
                calculateTrailerScore w title year ≤ calculateTrailerScore best title year)) := by
  refine ⟨fun title y => rfl, ?_, ?_, ?_⟩
  · intro provider title year h
    show searchLoop provider title year (trailerQueries title year) = _
    exact searchLoop_findSome provider title year h _
  · intro video title y hy
    simp only [calculateTrailerScore, hy, ne_eq, not_false_iff, true_and, if_false]
  · intro videos title year
    by_cases hemp : videos.isEmpty
    · rw [List.isEmpty_iff.mp hemp]
      refine ⟨fun _ v hv => absurd hv (List.not_mem_nil v), fun best hbest => ?_⟩
      rw [show findBestYouTubeTrailer [] title year = none from rfl] at hbest
      cases hbest
    · have heq : findBestYouTubeTrailer videos title year
          = match sortByDesc (fun item : YTVideo × ℤ => item.2)
              ((videos.map fun video =>
                  (video, calculateTrailerScore video title year)).filter
                fun item => 0 < item.2) with
            | [] => none
            | best :: _ => some best.1 := by
        rw [findBestYouTubeTrailer, if_neg hemp]
      cases hsort : sortByDesc (fun item : YTVideo × ℤ => item.2)
          ((videos.map fun video =>
              (video, calculateTrailerScore video title year)).filter
            fun item => 0 < item.2) with
      | nil =>
        have hscored : ((videos.map fun video =>
            (video, calculateTrailerScore video title year)).filter
              fun item => 0 < item.2) = [] := by
          have hperm := sortByDesc_perm (fun item : YTVideo × ℤ => item.2)
            ((videos.map fun video =>
                (video, calculateTrailerScore video title year)).filter
              fun item => 0 < item.2)
          rw [hsort] at hperm
          exact hperm.symm.eq_nil
        refine ⟨fun _ v hv => ?_, fun best hbest => ?_⟩
        · have hmem : (v, calculateTrailerScore v title year)
              ∈ videos.map fun video => (video, calculateTrailerScore video title year) :=
            List.mem_map.mpr ⟨v, hv, rfl⟩
          have := List.filter_eq_nil_iff.mp hscored _ hmem
          simpa using this
        · rw [heq, hsort] at hbest
          cases hbest
      | cons b rest =>
        have hb : findBestYouTubeTrailer videos title year = some b.1 := by
          rw [heq, hsort]
        have hbmem : b ∈ ((videos.map fun video =>
            (video, calculateTrailerScore video title year)).filter
              fun item => 0 < item.2) :=
          (sortByDesc_perm (fun item : YTVideo × ℤ => item.2) _).mem_iff.mp
            (hsort ▸ List.mem_cons_self b rest)
        have hbmem' := List.mem_filter.mp hbmem
        obtain ⟨v, hvmem, hveq⟩ := List.mem_map.mp hbmem'.1
        have hbpos : 0 < b.2 := by simpa using hbmem'.2
        have hb1 : b.1 = v := by rw [← hveq]
        have hb2 : b.2 = calculateTrailerScore b.1 title year := by rw [← hveq]
        refine ⟨fun hnone => ?_, fun best hbest => ?_⟩
        · rw [hb] at hnone; cases hnone
        · rw [hb] at hbest
          have hbb : b.1 = best := by injection hbest
          subst hbb
          refine ⟨hb1 ▸ hvmem, hb2 ▸ hbpos, ?_⟩
          intro w hw
          by_cases hwpos : 0 < calculateTrailerScore w title year
          · have hwmem : (w, calculateTrailerScore w title year)
                ∈ ((videos.map fun video =>
                    (video, calculateTrailerScore video title year)).filter
                  fun item => 0 < item.2) := by
              refine List.mem_filter.mpr ⟨List.mem_map.mpr ⟨w, hw, rfl⟩, by simpa using hwpos⟩
            have := sortByDesc_head_max (fun item : YTVideo × ℤ => item.2) hsort _ hwmem
            calc calculateTrailerScore w title year
                = (w, calculateTrailerScore w title year).2 := rfl
              _ ≤ b.2 := this
              _ = calculateTrailerScore b.1 title year := hb2
          · calc calculateTrailerScore w title year ≤ 0 := le_of_not_lt hwpos
              _ ≤ calculateTrailerScore b.1 title year := le_of_lt (hb2 ▸ hbpos)

/-- C4 witness: the query loop and the scorer at concrete inputs. -/
theorem C4_witness :
    searchYouTubeTrailer
        (fun _ => .ok [⟨"v1", "Movie Official Trailer", "", "netflix"⟩]) true "Movie" none
      = ([("Movie  official trailer" : String), "Movie  trailer",
          "Movie official trailer", "Movie trailer"].findSome? fun q =>
          match (fun _ => Except.ok (ε := Unit)
              [(⟨"v1", "Movie Official Trailer", "", "netflix"⟩ : YTVideo)]) q with
          | .ok items =>
            if items.isEmpty then none else findBestYouTubeTrailer items "Movie" none
          | .error _ => none)
    ∧ calculateTrailerScore ⟨"v1", "Movie 2024 Official Trailer", "", "netflix"⟩ "Movie" (some 2024)
        = 10 + 5 + 8 + 6 + 10 + 0 + 0 + 0
    ∧ ((⟨"v1", "Movie Official Trailer", "", "x"⟩ : YTVideo)
          ∈ [(⟨"v1", "Movie Official Trailer", "", "x"⟩ : YTVideo)]
        ∧ 0 < calculateTrailerScore ⟨"v1", "Movie Official Trailer", "", "x"⟩ "Movie" none
        ∧ ∀ w ∈ [(⟨"v1", "Movie Official Trailer", "", "x"⟩ : YTVideo)],
            calculateTrailerScore w "Movie" none
              ≤ calculateTrailerScore ⟨"v1", "Movie Official Trailer", "", "x"⟩ "Movie" none) := by
  refine ⟨?_, ?_, ?_⟩
  · exact C4_secondary_search.2.1
      (fun _ => .ok [⟨"v1", "Movie Official Trailer", "", "netflix"⟩]) "Movie" none
      (fun q => ⟨[⟨"v1", "Movie Official Trailer", "", "netflix"⟩], rfl⟩)
  · rw [C4_secondary_search.2.2.1 ⟨"v1", "Movie 2024 Official Trailer", "", "netflix"⟩
      "Movie" 2024 (by norm_num)]
    norm_num [show strIncludes (strLower "Movie 2024 Official Trailer") (strLower "Movie")
        = true from rfl,
      show strIncludes (strLower "Movie 2024 Official Trailer") (toString 2024) = true from rfl,
      show strIncludes (strLower "Movie 2024 Official Trailer") "official" = true from rfl,
      show strIncludes (strLower "Movie 2024 Official Trailer") "trailer" = true from rfl,
      show officialChannels.any
          (fun channel => strIncludes (strLower "netflix") channel) = true from rfl,
      show strIncludes (strLower "Movie 2024 Official Trailer") "reaction" = false from rfl,
      show strIncludes (strLower "Movie 2024 Official Trailer") "review" = false from rfl,
      show strIncludes (strLower "Movie 2024 Official Trailer") "fan made" = false from rfl]
  · exact (C4_secondary_search.2.2.2
      [⟨"v1", "Movie Official Trailer", "", "x"⟩] "Movie" none).2
      ⟨"v1", "Movie Official Trailer", "", "x"⟩ (by decide)

/-! ## Support lemmas: deduplication -/

section DedupeLemmas

variable {α : Type _} {K : Type _} [DecidableEq K] (key : α → K)

theorem dedupeAux_sublist (l : List α) : ∀ seen : List K,
    List.Sublist (dedupeAux key l seen) l := by
  induction l with
  | nil => intro seen; exact List.Sublist.refl _
  | cons x xs ih =>
    intro seen
    show List.Sublist (if key x ∈ seen then dedupeAux key xs seen
          else x :: dedupeAux key xs (key x :: seen)) (x :: xs)
    split
    · exact (ih seen).cons x
    · exact (ih _).cons₂ x

theorem dedupeAux_filter (k : K) (l : List α) : ∀ seen : List K,
    (dedupeAux key l seen).filter (fun x => decide (key x = k))
      = if k ∈ seen then [] else (l.filter fun x => decide (key x = k)).take 1 := by
  induction l with
  | nil =>
    intro seen
    by_cases h : k ∈ seen <;> simp [dedupeAux, h]
  | cons x xs ih =>
    intro seen
    show (if key x ∈ seen then dedupeAux key xs seen
          else x :: dedupeAux key xs (key x :: seen)).filter _ = _
    by_cases hx : key x ∈ seen
    · rw [if_pos hx, ih]
      by_cases hk : k ∈ seen
      · simp [hk]
      · have hne : ¬ key x = k := fun h => hk (h ▸ hx)
        simp [hk, List.filter_cons, hne]
    · rw [if_neg hx, List.filter_cons]
      by_cases hxk : key x = k
      · subst hxk
        simp [ih, hx, List.filter_cons]
      · have hkx : ¬ k = key x := fun h => hxk h.symm
        simp [ih, hxk, hkx, List.filter_cons, List.mem_cons]

theorem dedupeAux_not_mem_seen (l : List α) : ∀ (seen : List K) (x : α),
    x ∈ dedupeAux key l seen → key x ∉ seen := by
  induction l with
  | nil => intro seen x hx; simp [dedupeAux] at hx
  | cons y xs ih =>
    intro seen x hx
    by_cases hy : key y ∈ seen
    · rw [show dedupeAux key (y :: xs) seen = dedupeAux key xs seen by
        simp [dedupeAux, hy]] at hx
      exact ih seen x hx
    · rw [show dedupeAux key (y :: xs) seen = y :: dedupeAux key xs (key y :: seen) by
        simp [dedupeAux, hy]] at hx
      rcases List.mem_cons.mp hx with rfl | hx'
      · exact hy
      · exact fun h => ih _ x hx' (List.mem_cons_of_mem _ h)

theorem dedupeAux_pairwise (l : List α) : ∀ seen : List K,
    (dedupeAux key l seen).Pairwise fun a b => key a ≠ key b := by
  induction l with
  | nil => intro seen; exact List.Pairwise.nil
  | cons x xs ih =>
    intro seen
    show (if key x ∈ seen then dedupeAux key xs seen
          else x :: dedupeAux key xs (key x :: seen)).Pairwise _
    split
    · exact ih seen
    · refine List.Pairwise.cons ?_ (ih _)
      intro b hb
      exact fun h =>
        dedupeAux_not_mem_seen key xs _ b hb (h ▸ List.mem_cons_self _ _)

theorem dedupeAux_eq_self (l : List α) : ∀ seen : List K,
    (∀ x ∈ l, key x ∉ seen) → l.Pairwise (fun a b => key a ≠ key b) →
    dedupeAux key l seen = l := by
  induction l with
  | nil => intro seen _ _; rfl
  | cons x xs ih =>
    intro seen h1 hp
    have hx : key x ∉ seen := h1 x (List.mem_cons_self _ _)
    show (if key x ∈ seen then dedupeAux key xs seen
          else x :: dedupeAux key xs (key x :: seen)) = x :: xs
    rw [if_neg hx]
    congr 1
    refine ih _ ?_ (List.pairwise_cons.mp hp).2
    intro y hy
    rw [List.mem_cons]
    push_neg
    exact ⟨fun h => (List.pairwise_cons.mp hp).1 y hy h.symm,
      h1 y (List.mem_cons_of_mem _ hy)⟩

theorem dedupeAux_congr (l : List α) : ∀ s₁ s₂ : List K,
    (∀ k, k ∈ s₁ ↔ k ∈ s₂) → dedupeAux key l s₁ = dedupeAux key l s₂ := by
  induction l with
  | nil => intro _ _ _; rfl
  | cons x xs ih =>
    intro s₁ s₂ h
    by_cases hx : key x ∈ s₁
    · rw [show dedupeAux key (x :: xs) s₁ = dedupeAux key xs s₁ by simp [dedupeAux, hx],
        show dedupeAux key (x :: xs) s₂ = dedupeAux key xs s₂ by
          simp [dedupeAux, (h (key x)).mp hx]]
      exact ih s₁ s₂ h
    · have hx₂ : key x ∉ s₂ := fun hh => hx ((h (key x)).mpr hh)
      rw [show dedupeAux key (x :: xs) s₁ = x :: dedupeAux key xs (key x :: s₁) by
          simp [dedupeAux, hx],
        show dedupeAux key (x :: xs) s₂ = x :: dedupeAux key xs (key x :: s₂) by
          simp [dedupeAux, hx₂]]
      congr 1
      refine ih _ _ fun k => ?_
      simp [List.mem_cons, h k]

/-- An element of `pre ++ x :: xs` whose key equals `key x` is first
found at position `pre.length` exactly when no element of `pre` shares
the key of `x`.  This is the `findIndex`-based keep test of the
deduplication in `getUpcomingMovies`. -/
theorem findIdx_first_occurrence (x : α) (xs : List α) : ∀ pre : List α,
    ((pre ++ x :: xs).findIdx? (fun m => decide (key m = key x)) = some pre.length)
      ↔ key x ∉ pre.map key := by
  intro pre
  induction pre with
  | nil => simp [List.findIdx?_cons]
  | cons y pre' ih =>
    show ((y :: (pre' ++ x :: xs)).findIdx? _ = some (pre'.length + 1)) ↔ _
    rw [List.findIdx?_cons]
    by_cases hyx : key y = key x
    · have hd : (decide (key y = key x)) = true := decide_eq_true hyx
      rw [hd, if_pos rfl]
      constructor
      · intro h
        exact absurd h (by simp)
      · intro h
        exact absurd (List.mem_map.mpr ⟨y, List.mem_cons_self _ _, hyx⟩) h
    · rw [show (decide (key y = key x)) = false from decide_eq_false hyx]
      simp only [Bool.false_eq_true, if_false]
      rw [List.findIdx?_succ]
      have hmap : key x ∉ (y :: pre').map key ↔ key x ∉ pre'.map key := by
        simp only [List.map_cons, List.mem_cons]
        push_neg
        constructor
        · exact fun h => h.2
        · exact fun h => ⟨fun hh => hyx hh.symm, h⟩
      rw [hmap, ← ih]
      cases ho : List.findIdx? (fun m => decide (key m = key x)) (pre' ++ x :: xs) with
      | none =>
        exfalso
        have := List.findIdx?_eq_none_iff.mp ho x
          (List.mem_append_right _ (List.mem_cons_self _ _))
        simp at this
      | some m => simp [Option.map_some']

/-- The `findIndex`-based deduplication walk agrees with the seen-set
walk: the keys of the processed prefix play the role of the seen set. -/
theorem dedupeFIAux_eq : ∀ rest pre : List α,
    dedupeFIAux key (pre ++ rest) rest pre.length = dedupeAux key rest (pre.map key) := by
  intro rest
  induction rest with
  | nil => intro pre; rfl
  | cons x xs ih =>
    intro pre
    have hself : pre ++ x :: xs = (pre ++ [x]) ++ xs := by simp
    have hlen : pre.length + 1 = (pre ++ [x]).length := by simp
    show (if (pre ++ x :: xs).findIdx? (fun m => decide (key m = key x)) = some pre.length
          then x :: dedupeFIAux key (pre ++ x :: xs) xs (pre.length + 1)
          else dedupeFIAux key (pre ++ x :: xs) xs (pre.length + 1)) = _
    by_cases hfi : (pre ++ x :: xs).findIdx? (fun m => decide (key m = key x))
        = some pre.length
    · rw [if_pos hfi]
      have hnotin : key x ∉ pre.map key := (findIdx_first_occurrence key x xs pre).mp hfi
      rw [show dedupeAux key (x :: xs) (pre.map key)
            = x :: dedupeAux key xs (key x :: pre.map key) by simp [dedupeAux, hnotin]]
      rw [hself, hlen, ih (pre ++ [x])]
      congr 1
      refine dedupeAux_congr key xs _ _ fun k => ?_
      simp [List.mem_append, List.mem_cons, or_comm]
    · rw [if_neg hfi]
      have hin : key x ∈ pre.map key := by
        by_contra h
        exact hfi ((findIdx_first_occurrence key x xs pre).mpr h)
      rw [show dedupeAux key (x :: xs) (pre.map key) = dedupeAux key xs (pre.map key) by
        simp [dedupeAux, hin]]
      rw [hself, hlen, ih (pre ++ [x])]
      refine dedupeAux_congr key xs _ _ fun k => ?_
      simp only [List.map_append, List.map_cons, List.map_nil, List.mem_append,
        List.mem_cons, List.not_mem_nil, or_false]
      constructor
      · rintro (h | rfl)
        · exact h
        · exact hin
      · exact fun h => Or.inl h

end DedupeLemmas

/-! ## Claim C6 -/

/-- C6: deduplication (both the seen-set form of `getWatchAtHomeContent`
and the `findIndex` form of `getUpcomingMovies`, which coincide) keeps
a subsequence of the input in which no two items share a key, retaining
for each key exactly the first occurrence in input order, and leaves an
input without duplicate keys (in particular the empty list) unchanged. -/
theorem C6_dedupe {α : Type _} {K : Type _} [DecidableEq K] (key : α → K) (l : List α) :
    List.Sublist (dedupe key l) l
    ∧ (dedupe key l).Pairwise (fun a b => key a ≠ key b)
    ∧ (∀ k, (dedupe key l).filter (fun x => decide (key x = k))
        = (l.filter fun x => decide (key x = k)).take 1)
    ∧ (l.Pairwise (fun a b => key a ≠ key b) → dedupe key l = l)
    ∧ dedupe key ([] : List α) = []
    ∧ dedupeByFindIdx key l = dedupe key l := by
  refine ⟨dedupeAux_sublist key l [], dedupeAux_pairwise key l [], ?_, ?_, rfl, ?_⟩
  · intro k
    rw [dedupe, dedupeAux_filter key k l []]
    simp
  · intro hp
    exact dedupeAux_eq_self key l [] (by simp) hp
  · exact dedupeFIAux_eq key l []

/-- C6 witness: deduplication of a concrete duplicate-free list is the
identity; concrete filter characterization. -/
theorem C6_witness :
    dedupe (fun n : ℕ => n % 3) [1, 2, 6] = [1, 2, 6]
    ∧ dedupeByFindIdx (fun n : ℕ => n % 3) [1, 2, 6] = dedupe (fun n : ℕ => n % 3) [1, 2, 6] :=
  ⟨(C6_dedupe (fun n : ℕ => n % 3) [1, 2, 6]).2.2.2.1 (by decide),
   (C6_dedupe (fun n : ℕ => n % 3) [1, 2, 6]).2.2.2.2.2⟩

/-! ## Claim C7 -/

/-- C7 counterexample.  The genre filter of `getPopularTVShows` tests
`show.genres && !show.genres.some(…)`: an item carrying no genre
information fails the truthiness test and is removed even though it
matches no exclusion predicate, contradicting the claim that every such
item is retained. -/
theorem C7_counterexample :
    hasExcludedGenre ⟨1, none⟩ = false
    ∧ popularTVGenreFilter [⟨1, none⟩] = [] :=
  ⟨rfl, rfl⟩

/-- C7 (amended): both genre filters remove every listed item whose
genre list intersects the excluded ids and retain, in order, every
listed item whose genre list is present and disjoint from them; an item
carrying no genre information is retained by the `getWatchAtHomeContent`
filter but removed by the `getPopularTVShows` filter. -/
theorem C7_amended :
    (∀ (l : List ShowItem) (x : ShowItem), x ∈ l → hasExcludedGenre x = true →
      x ∉ popularTVGenreFilter l ∧ x ∉ watchAtHomeGenreFilter l)
    ∧ (∀ (l : List ShowItem) (x : ShowItem) (gs : List Genre), x ∈ l →
        x.genres = some gs → hasExcludedGenre x = false →
        x ∈ popularTVGenreFilter l ∧ x ∈ watchAtHomeGenreFilter l)
    ∧ (∀ (l : List ShowItem) (x : ShowItem), x ∈ l → x.genres = none →
        x ∈ watchAtHomeGenreFilter l ∧ x ∉ popularTVGenreFilter l)
    ∧ (∀ l : List ShowItem, List.Sublist (popularTVGenreFilter l) l
        ∧ List.Sublist (watchAtHomeGenreFilter l) l) := by
  refine ⟨?_, ?_, ?_, fun l => ⟨List.filter_sublist l, List.filter_sublist l⟩⟩
  · intro l x hx hex
    obtain ⟨i, genres⟩ := x
    cases genres with
    | none => simp [hasExcludedGenre] at hex
    | some gs =>
      simp only [hasExcludedGenre] at hex
      constructor <;> intro hmem <;>
      · have h2 : (!(gs.any fun genre => EXCLUDED_GENRE_IDS.contains genre.id)) = true :=
          (List.mem_filter.mp hmem).2
        rw [hex] at h2
        exact absurd h2 (by decide)
  · intro l x gs hx hg hex
    obtain ⟨i, genres⟩ := x
    cases hg
    simp only [hasExcludedGenre] at hex
    constructor <;>
      exact List.mem_filter.mpr ⟨hx,
        show (!(gs.any fun genre => EXCLUDED_GENRE_IDS.contains genre.id)) = true by
          rw [hex]; rfl⟩
  · intro l x hx hg
    obtain ⟨i, genres⟩ := x
    cases hg
    constructor
    · exact List.mem_filter.mpr ⟨hx, rfl⟩
    · intro hmem
      exact Bool.false_ne_true ((List.mem_filter.mp hmem).2)

/-- C7 witness: the amended filter behavior at concrete items. -/
theorem C7_witness :
    (⟨1, none⟩ : ShowItem) ∈ watchAtHomeGenreFilter [⟨1, none⟩]
    ∧ (⟨2, some [⟨18⟩]⟩ : ShowItem) ∈ popularTVGenreFilter [⟨2, some [⟨18⟩]⟩]
    ∧ (⟨3, some [⟨10767⟩]⟩ : ShowItem) ∉ popularTVGenreFilter [⟨3, some [⟨10767⟩]⟩] :=
  ⟨(C7_amended.2.2.1 [⟨1, none⟩] ⟨1, none⟩ (List.mem_singleton.mpr rfl) rfl).1,
   (C7_amended.2.1 [⟨2, some [⟨18⟩]⟩] ⟨2, some [⟨18⟩]⟩ [⟨18⟩]
      (List.mem_singleton.mpr rfl) rfl (by decide)).1,
   (C7_amended.1 [⟨3, some [⟨10767⟩]⟩] ⟨3, some [⟨10767⟩]⟩
      (List.mem_singleton.mpr rfl) (by decide)).1⟩

/-! ## Claim C10 -/

/-- C10: every item returned by the search pipeline is normalized — its
`media_type` is exactly "movie" or "tv"; a movie item is the processed
image of a fetched movie, a TV item is the processed image of a fetched
show with `name` copied into `title` and `first_air_date` copied into
`release_date`; its poster path is `null` or an absolute https image
URL; and at most 20 items are returned. -/
theorem C10_search_normalization :
    ∀ (query : String) (movieResults : List RawMovie) (tvResults : List RawTV)
      (item : SearchItem), item ∈ searchMoviesAndTV query movieResults tvResults →
      (item.media_type = "movie" ∨ item.media_type = "tv")
      ∧ (item.media_type = "movie" → ∃ m ∈ movieResults, item = processMovie m)
      ∧ (item.media_type = "tv" → ∃ s ∈ tvResults, item = processTV s
          ∧ item.title = s.name ∧ item.release_date = s.first_air_date)
      ∧ (item.poster_path = none
          ∨ ∃ p, item.poster_path = some ("https://image.tmdb.org/t/p/w500" ++ p))
      ∧ (searchMoviesAndTV query movieResults tvResults).length ≤ 20 := by
  intro query movieResults tvResults item hmem
  have hposter : ∀ o : Option String, posterUrl o = none
      ∨ ∃ p, posterUrl o = some ("https://image.tmdb.org/t/p/w500" ++ p) := by
    intro o
    cases o with
    | none => exact Or.inl rfl
    | some p =>
      by_cases hp : p = ""
      · exact Or.inl (by simp [posterUrl, hp])
      · exact Or.inr ⟨p, by simp [posterUrl, hp]⟩
  have hlen : (searchMoviesAndTV query movieResults tvResults).length ≤ 20 := by
    show ((rankBySmartScore query
        (movieResults.map processMovie ++ tvResults.map processTV)).take 20).length ≤ 20
    rw [List.length_take]
    exact min_le_left _ _
  have hmem' : item ∈ (rankBySmartScore query
      (movieResults.map processMovie ++ tvResults.map processTV)).take 20 := hmem
  have h1 : item ∈ rankBySmartScore query
      (movieResults.map processMovie ++ tvResults.map processTV) :=
    (List.take_sublist _ _).mem hmem'
  have h2 : item ∈ movieResults.map processMovie ++ tvResults.map processTV :=
    ((sortByDesc_perm (itemScore query) _).mem_iff).mp h1
  rcases List.mem_append.mp h2 with hm | ht
  · obtain ⟨m, hmmem, hmeq⟩ := List.mem_map.mp hm
    subst hmeq
    refine ⟨Or.inl rfl, fun _ => ⟨m, hmmem, rfl⟩, fun htv => ?_, hposter _, hlen⟩
    exact absurd (show ("movie" : String) = "tv" from htv) (by decide)
  · obtain ⟨s, hsmem, hseq⟩ := List.mem_map.mp ht
    subst hseq
    refine ⟨Or.inr rfl, fun hmov => ?_, fun _ => ⟨s, hsmem, rfl, rfl, rfl⟩, hposter _, hlen⟩
    exact absurd (show ("tv" : String) = "movie" from hmov) (by decide)

/-- C10 witness: the normalization invariant at a concrete input. -/
theorem C10_witness :
    ((processMovie ⟨0, "t", none, none, none, none, none⟩).media_type = "movie"
      ∨ (processMovie ⟨0, "t", none, none, none, none, none⟩).media_type = "tv")
    ∧ (searchMoviesAndTV "q" [⟨0, "t", none, none, none, none, none⟩] []).length ≤ 20 := by
  have hmem : processMovie ⟨0, "t", none, none, none, none, none⟩
      ∈ searchMoviesAndTV "q" [⟨0, "t", none, none, none, none, none⟩] [] :=
    List.mem_singleton.mpr rfl
  exact ⟨(C10_search_normalization "q" [⟨0, "t", none, none, none, none, none⟩] [] _ hmem).1,
    (C10_search_normalization "q" [⟨0, "t", none, none, none, none, none⟩] [] _ hmem).2.2.2.2⟩

end AryFlix
